import Mathlib

/-!
Verification of the deployment manager in `server.go`.

The development shallowly embeds the orchestration core: the health-check
polling loop (`waitForAppToStart`), the port allocator (`findUnusedPort`),
the registry store (`readConfig` / `writeConfig`, with `json.Marshal` and
`json.Unmarshal` modelled as `marshalConfig` / `goUnmarshal`), deploy-id
generation (`NewDeployDir`) and the `Run` orchestration. Time is modelled
in milliseconds as `Nat`; the network and the file system are explicit
inputs.
-/

set_option linter.unusedVariables false

namespace Camus

/-! ## Health checker (`waitForAppToStart`): definitions

The outcome of one HTTP GET, as seen at the network boundary before the Go
`http.Client` post-processes it: the server either sent a final response
with some status code, sent a redirect the client would have followed, or
the request failed to complete (connection refused / timeout). -/

inductive Attempt where
  | completed (status : Nat)
  | redirect
  | connFailure
deriving DecidableEq, Repr

/-- Models `client.Get` in `waitForAppToStart`: the client is built with a
`CheckRedirect` hook that returns an error, and per the documented contract
of `net/http.Client`, when `CheckRedirect` returns an error `Get` returns a
non-nil error. So a completed response yields `some status` (err == nil)
while both a redirect and a connection failure yield `none` (err != nil). -/
def clientGet : Attempt → Option Nat
  | .completed s => some s
  | .redirect => none
  | .connFailure => none

/-- `MAX_STARTUP_TIME` from the source, in milliseconds (1 second). -/
def MAX_STARTUP_TIME : Nat := 1000

/-- `MAX_HEALTH_CHECK_TIME` from the source, in milliseconds (2 seconds):
the per-request client timeout. It bounds each attempt's duration. -/
def MAX_HEALTH_CHECK_TIME : Nat := 2000

/-- `STARTUP_HEALTH_CHECK_INTERVAL` from the source, in milliseconds. -/
def STARTUP_HEALTH_CHECK_INTERVAL : Nat := 100

/-- Result of the health-check loop, together with the source expression it
comes from: `healthy` is the `return nil` on status 200, `badStatus c` is
the error built by `Health check failed <c>`, and `startupTimeout` is the
error `Failed to connect to app after timeout`. -/
inductive HealthResult where
  | healthy
  | badStatus (code : Nat)
  | startupTimeout
deriving DecidableEq, Repr

/-- The `for` loop body of `waitForAppToStart`. `polls` gives, for each
iteration index, the outcome of the GET issued there and the time the GET
took to return; `t` is the current clock (ms) when the GET is issued, and
`endT` is the deadline computed before the loop. Following the source:
the GET result is inspected first (`err == nil`: status 200 returns,
any other status returns an error); only on a failed GET is the deadline
checked (`time.Now().After(end)`), and otherwise the loop sleeps
`STARTUP_HEALTH_CHECK_INTERVAL` and retries. The second component counts
how many GET attempts were issued. -/
def waitFrom (endT : Nat) (polls : Nat → Attempt × Nat) (i : Nat) (t : Nat) :
    HealthResult × Nat :=
  let d := (polls i).2
  match clientGet (polls i).1 with
  | some s => if s = 200 then (HealthResult.healthy, 1) else (HealthResult.badStatus s, 1)
  | none =>
    if t + d > endT then (HealthResult.startupTimeout, 1)
    else
      let r := waitFrom endT polls (i + 1) (t + d + STARTUP_HEALTH_CHECK_INTERVAL)
      (r.1, r.2 + 1)
termination_by endT + 1 - t
decreasing_by
  simp only [STARTUP_HEALTH_CHECK_INTERVAL]
  omega

/-- A structure for the `Application` value produced by the (out-of-scope)
manifest resolver: a run-command template over the port and a health path,
as consumed by `Run` and `waitForAppToStart`. -/
structure Application where
  RunCmd : Nat → String
  HealthEndpoint : String

/-- `waitForAppToStart(port, app)`: computes the deadline
`end = time.Now().Add(MAX_STARTUP_TIME)` and enters the polling loop.
`t0` is the clock value at entry. `port` and `app` determine the polled
URL `http://localhost:<port><healthPath>`; the responses that URL gives
are the `polls` input. -/
def waitForAppToStart (port : Nat) (app : Application) (t0 : Nat)
    (polls : Nat → Attempt × Nat) : HealthResult × Nat :=
  waitFrom (t0 + MAX_STARTUP_TIME) polls 0 t0

/-- Replaces a redirect outcome by a plain connection failure, leaving
everything else unchanged; used to state that the loop cannot tell the
two apart. -/
def swapRedirect : Attempt → Attempt
  | .redirect => .connFailure
  | a => a

/-! ## Port allocator (`findUnusedPort`): definitions -/

/-- Models `net.Dial("tcp", "127.0.0.1:<p>")` succeeding: `dialSucceeds p`
is true when something is listening on port `p` (the dial connects, so the
port is occupied) and false when the dial errors (the port is taken to be
free). `findUnusedPort` scans `8001 ≤ p < 8100` in order and returns the
first candidate whose dial fails; if every dial succeeds it returns the
`Could not find free port` error. -/
def findUnusedPort (dialSucceeds : Nat → Bool) : Except Unit Nat :=
  match (List.range' 8001 99).find? (fun p => ! dialSucceeds p) with
  | some p => Except.ok p
  | none => Except.error ()

/-! ## Decimal rendering and parsing: definitions

`natDigits` models Go's `fmt` `%d` verb on a non-negative integer, and the
decimal key strings `encoding/json` produces for `map[int]string` keys;
`parseNat` models the integer parsing `encoding/json` applies to object
keys when unmarshalling into `map[int]string`. -/

def natDigits (n : Nat) : List Char :=
  if n < 10 then [Nat.digitChar n]
  else natDigits (n / 10) ++ [Nat.digitChar (n % 10)]
termination_by n
decreasing_by omega

def digitVal (c : Char) : Nat := c.toNat - '0'.toNat

def parseNatFrom (acc : Nat) : List Char → Option Nat
  | [] => some acc
  | c :: rest => if c.isDigit then parseNatFrom (acc * 10 + digitVal c) rest else none

def parseNat (cs : List Char) : Option Nat :=
  if cs.isEmpty then none else parseNatFrom 0 cs

/-! ## Association maps: definitions

Go map values are modelled as association lists with at-most-one binding
per key; `mapInsert` is `m[k] = v`, `mapLookup` is `m[k]`. -/

def mapInsert {κ ν : Type} [DecidableEq κ] : List (κ × ν) → κ → ν → List (κ × ν)
  | [], k, v => [(k, v)]
  | (k', v') :: rest, k, v =>
    if k' = k then (k, v) :: rest else (k', v') :: mapInsert rest k v

def mapLookup {κ ν : Type} [DecidableEq κ] : List (κ × ν) → κ → Option ν
  | [], _ => none
  | (k', v') :: rest, k => if k' = k then some v' else mapLookup rest k

/-- At most one binding per key: the invariant Go maps satisfy by
construction. -/
def NodupKeys {κ ν : Type} (m : List (κ × ν)) : Prop := (m.map Prod.fst).Nodup

/-! ## Registry (`Config`) and its persistence: definitions -/

/-- The `Config` struct from the source: `Ports map[int]string` and
`Labels map[string]string`, as association lists. -/
structure Config where
  Ports : List (Nat × String)
  Labels : List (String × String)
deriving DecidableEq, Repr

def emptyConfig : Config := { Ports := [], Labels := [] }

/-- `s.config.Ports[port] = deployId` from `Run`. -/
def assignPort (c : Config) (port : Nat) (deployId : String) : Config :=
  { c with Ports := mapInsert c.Ports port deployId }

/-- The serialized form `json.Marshal` produces for a `Config`: a JSON
object per field, modelled as its list of key/value entries. For the
`map[int]string` field the keys are rendered in decimal (the `"8050"` of
the persisted file). Go additionally sorts the object keys; the order of
entries is unobservable after unmarshalling into maps and is not modelled. -/
structure Wire where
  PortsEntries : List (String × String)
  LabelsEntries : List (String × String)
deriving DecidableEq, Repr

def marshalConfig (c : Config) : Wire :=
  { PortsEntries := c.Ports.map (fun kv => (String.mk (natDigits kv.1), kv.2)),
    LabelsEntries := c.Labels }

/-- Why a read of `config.json` can fail: the file may be absent, but also
unreadable for other reasons such as permissions. -/
inductive ReadError where
  | notExist
  | permissionDenied
  | other
deriving DecidableEq, Repr

inductive ParseError where
  | invalid
deriving DecidableEq, Repr

/-- The zero value `var config Config` holds nil maps until something is
decoded into them; `readConfig` replaces nil maps by empty ones at the
end. -/
structure RawConfig where
  Ports : Option (List (Nat × String))
  Labels : Option (List (String × String))

/-- `readConfig` translated from the source: attempt the read; only when
the read succeeds (`err == nil`) is the data unmarshalled, and an
unmarshal failure is returned as the error; a failed read of any kind is
silently skipped, leaving the zero-value config; finally nil maps are
defaulted to empty ones and the config returned with a nil error. `α` is
the raw file content and `unmarshal` stands for `json.Unmarshal` at the
`Config` shape. -/
def readConfig {α : Type} (readResult : Except ReadError α)
    (unmarshal : α → Except ParseError RawConfig) : Except ParseError Config :=
  match readResult with
  | .error _ => .ok emptyConfig
  | .ok data =>
    match unmarshal data with
    | .error e => .error e
    | .ok raw => .ok { Ports := raw.Ports.getD [], Labels := raw.Labels.getD [] }

/-- Rebuilding a Go map from decoded entries: successive assignments into
an initially empty map. -/
def fromEntries {κ ν : Type} [DecidableEq κ] (l : List (κ × ν)) : List (κ × ν) :=
  l.foldl (fun m kv => mapInsert m kv.1 kv.2) []

/-- The `map[int]string` case of `json.Unmarshal`: each object key is
parsed as an integer and the binding stored; a key that does not parse
makes the whole unmarshal fail. -/
def decodePortsFrom (acc : List (Nat × String)) :
    List (String × String) → Option (List (Nat × String))
  | [] => some acc
  | (k, v) :: rest =>
    match parseNat k.data with
    | none => none
    | some kk => decodePortsFrom (mapInsert acc kk v) rest

/-- `json.Unmarshal` of a wire value at the `Config` shape. -/
def goUnmarshal (w : Wire) : Except ParseError RawConfig :=
  match decodePortsFrom [] w.PortsEntries with
  | none => .error .invalid
  | some ports => .ok { Ports := some ports, Labels := some (fromEntries w.LabelsEntries) }

/-- Loading a registry back from a successfully read serialized form. -/
def loadFromWire (w : Wire) : Except ParseError Config :=
  readConfig (Except.ok w) goUnmarshal

/-! ## Deploy manager (`Run`): definitions -/

/-- The constant `deployPath` from the source. -/
def deployPath : String := "deploys"

/-- The constant `configPath` from the source. -/
def configPath : String := "config.json"

/-- `writeConfig` from the source: marshal the registry and overwrite
`<root>/config.json`. `disk` is the current content of that file and
`persistOk` says whether the `ioutil.WriteFile` call succeeds
(`json.Marshal` cannot fail on this shape); the returned error is the one
`Run` drops. -/
def writeConfig (c : Config) (disk : Option Wire) (persistOk : Bool) :
    Option Wire × Except Unit Unit :=
  if persistOk then (some (marshalConfig c), Except.ok ()) else (disk, Except.error ())

/-- The distinct errors `Run` can return, named after the source
expressions that build them: `noFreePortAvailable` is
`Could not find free port`, `manifestError` is whatever
`ApplicationFromConfig` returned, `spawnError` is the error from
`cmd.Start()`, and the two health variants come from
`waitForAppToStart`. -/
inductive RunError where
  | noFreePortAvailable
  | manifestError
  | spawnError
  | healthBadStatus (code : Nat)
  | startupTimeout
deriving DecidableEq, Repr

/-- Side effects of `Run` in the order they happen: `persisted` is the
`s.writeConfig()` call (made right after the in-memory port assignment),
`launched` marks `cmd.Start()` returning successfully, i.e. the process
now running. -/
inductive Event where
  | persisted
  | launched
deriving DecidableEq, Repr

/-- Everything one invocation of `Run` observes from outside: the TCP
probe outcomes, the result of the out-of-scope manifest resolver
`ApplicationFromConfig`, whether the config write and the process spawn
succeed, and the health endpoint's behavior. -/
structure RunEnv where
  dialSucceeds : Nat → Bool
  manifest : Except Unit Application
  persistOk : Bool
  spawnOk : Bool
  startTime : Nat
  polls : Nat → Attempt × Nat

/-- The state `Run` can mutate: the in-memory registry and the persisted
`config.json` (`none` = file absent). -/
structure ServerState where
  config : Config
  disk : Option Wire

def healthToRunResult : HealthResult → Except RunError Unit
  | .healthy => Except.ok ()
  | .badStatus c => Except.error (RunError.healthBadStatus c)
  | .startupTimeout => Except.error RunError.startupTimeout

/-- `Run(deployId)` translated from the source: find a free port (failure
returns immediately), resolve the manifest (failure returns immediately),
assign the port in the in-memory registry, call `writeConfig` and drop its
error, start the detached process (failure returns the spawn error), and
finally block in `waitForAppToStart`. Besides the result it returns the
final state and the ordered list of side-effect events. -/
def Run (st : ServerState) (deployId : String) (env : RunEnv) :
    Except RunError Unit × ServerState × List Event :=
  match findUnusedPort env.dialSucceeds with
  | .error _ => (Except.error RunError.noFreePortAvailable, st, [])
  | .ok port =>
    match env.manifest with
    | .error _ => (Except.error RunError.manifestError, st, [])
    | .ok app =>
      let config1 := assignPort st.config port deployId
      let disk1 := (writeConfig config1 st.disk env.persistOk).1
      let st1 : ServerState := { config := config1, disk := disk1 }
      if env.spawnOk then
        (healthToRunResult (waitForAppToStart port app env.startTime env.polls).1,
         st1, [Event.persisted, Event.launched])
      else
        (Except.error RunError.spawnError, st1, [Event.persisted])

/-! ## Deploy-id generation (`NewDeployDir`): definitions -/

/-- The fields of a Go `time.Time` value that `NewDeployDir` reads, plus
the sub-second part it does not read. -/
structure GoTime where
  year : Nat
  month : Nat
  day : Nat
  hour : Nat
  minute : Nat
  second : Nat
  nanosecond : Nat
deriving DecidableEq, Repr

/-- The `%02d` verb of `fmt.Sprintf`: decimal, zero-padded to width 2. -/
def pad2 (n : Nat) : List Char :=
  if n < 10 then '0' :: natDigits n else natDigits n

/-- The format string of `NewDeployDir`:
`%d-%02d-%02d-%02d-%02d-%02d` applied to year, month, day, hour, minute
and second. -/
def timestampChars (t : GoTime) : List Char :=
  natDigits t.year ++ '-' :: pad2 t.month ++ '-' :: pad2 t.day ++
    '-' :: pad2 t.hour ++ '-' :: pad2 t.minute ++ '-' :: pad2 t.second

/-- The response struct `NewDeployDir` builds (its declaration lives
outside this file's source; the two fields are taken from the literal in
`NewDeployDir`). -/
structure NewDeployDirResponse where
  DeployId : String
  Path : String
deriving DecidableEq, Repr

/-- Models Go's `path.Join` on two already-clean, nonempty, relative-free
components (as the root, `deploys` and a timestamp are here): joins with
a single slash. -/
def pathJoin (a b : String) : String := a ++ "/" ++ b

/-- `NewDeployDir` translated from the source, with the wall clock as an
explicit argument. -/
def NewDeployDir (root : String) (t : GoTime) : NewDeployDirResponse :=
  let timestamp : String := String.mk (timestampChars t)
  { DeployId := timestamp,
    Path := pathJoin (pathJoin root deployPath) timestamp }

/-- The pattern `YYYY-MM-DD-HH-MM-SS`: 19 characters, digits everywhere
except dashes at positions 4, 7, 10, 13 and 16. -/
def isTimestampFormat (s : String) : Bool :=
  match s.data with
  | [y1, y2, y3, y4, a, mo1, mo2, b, d1, d2, c, h1, h2, e, mi1, mi2, f, s1, s2] =>
    y1.isDigit && y2.isDigit && y3.isDigit && y4.isDigit && a = '-' &&
    mo1.isDigit && mo2.isDigit && b = '-' && d1.isDigit && d2.isDigit && c = '-' &&
    h1.isDigit && h2.isDigit && e = '-' && mi1.isDigit && mi2.isDigit && f = '-' &&
    s1.isDigit && s2.isDigit
  | _ => false

/-! ## Concrete fixtures used by witnesses -/

/-- A dial that always connects: every candidate port is occupied. -/
def dialNoneFree : Nat → Bool := fun _ => true

/-- A dial that always fails: every candidate port is free. -/
def dialAllFree : Nat → Bool := fun _ => false

def appFixture : Application := ⟨fun _ => "./app --port=PORT", "/healthz"⟩

def stEmpty : ServerState := ⟨emptyConfig, none⟩

/-- Environment for a run that allocates 8001, persists, then fails to
spawn. -/
def envSpawnFail : RunEnv :=
  ⟨dialAllFree, Except.ok appFixture, true, false, 0, fun _ => (Attempt.completed 200, 0)⟩

/-- Environment in which no port is free. -/
def envNoPort : RunEnv :=
  ⟨dialNoneFree, Except.ok appFixture, true, true, 0, fun _ => (Attempt.completed 200, 0)⟩

/-- Environment in which the manifest fails to resolve. -/
def envBadManifest : RunEnv :=
  ⟨dialAllFree, Except.error (), true, true, 0, fun _ => (Attempt.completed 200, 0)⟩

/-! ## Helper lemmas: health checker -/

theorem waitFrom_completed (endT : Nat) (polls : Nat → Attempt × Nat) (i t s : Nat)
    (h : (polls i).1 = Attempt.completed s) :
    waitFrom endT polls i t =
      if s = 200 then (HealthResult.healthy, 1) else (HealthResult.badStatus s, 1) := by
  rw [waitFrom]
  simp [h, clientGet]

theorem waitFrom_errTimeout (endT : Nat) (polls : Nat → Attempt × Nat) (i t : Nat)
    (h : clientGet (polls i).1 = none) (h2 : t + (polls i).2 > endT) :
    waitFrom endT polls i t = (HealthResult.startupTimeout, 1) := by
  rw [waitFrom]
  simp [h, h2]

theorem waitFrom_errRetry (endT : Nat) (polls : Nat → Attempt × Nat) (i t : Nat)
    (h : clientGet (polls i).1 = none) (h2 : ¬ t + (polls i).2 > endT) :
    waitFrom endT polls i t =
      ((waitFrom endT polls (i + 1) (t + (polls i).2 + STARTUP_HEALTH_CHECK_INTERVAL)).1,
       (waitFrom endT polls (i + 1) (t + (polls i).2 + STARTUP_HEALTH_CHECK_INTERVAL)).2 + 1) := by
  rw [waitFrom]
  simp [h, h2]

/-! ## Helper lemmas: port allocator -/

theorem find?_range'_spec (f : Nat → Bool) (len start p : Nat)
    (h : (List.range' start len).find? f = some p) :
    start ≤ p ∧ p < start + len ∧ f p = true ∧ ∀ q, start ≤ q → q < p → f q = false := by
  simp at h
  obtain ⟨h1, ⟨h2, h3⟩, h4⟩ := h
  exact ⟨h2, h3, h1, fun q hq1 hq2 => h4 q hq1 hq2⟩

theorem find?_range'_none (f : Nat → Bool) (len start : Nat)
    (h : ∀ q, start ≤ q → q < start + len → f q = false) :
    (List.range' start len).find? f = none := by
  simp
  exact fun q h1 h2 => h q h1 h2

/-! ## Helper lemmas: decimal rendering and parsing -/

theorem natDigits_lt10 (n : Nat) (h : n < 10) : natDigits n = [Nat.digitChar n] := by
  rw [natDigits]
  simp [h]

theorem natDigits_ge10 (n : Nat) (h : 10 ≤ n) :
    natDigits n = natDigits (n / 10) ++ [Nat.digitChar (n % 10)] := by
  rw [natDigits]
  simp [Nat.not_lt_of_le h]

theorem natDigits_ne_nil (n : Nat) : natDigits n ≠ [] := by
  by_cases h : n < 10
  · rw [natDigits_lt10 n h]; simp
  · rw [natDigits_ge10 n (by omega)]; simp

theorem digitChar_isDigit (m : Nat) (h : m < 10) : (Nat.digitChar m).isDigit = true := by
  interval_cases m <;> decide

theorem digitVal_digitChar (m : Nat) (h : m < 10) : digitVal (Nat.digitChar m) = m := by
  interval_cases m <;> decide

theorem parseNatFrom_append (l1 l2 : List Char) :
    ∀ acc, parseNatFrom acc (l1 ++ l2) =
      match parseNatFrom acc l1 with
      | some a => parseNatFrom a l2
      | none => none := by
  induction l1 with
  | nil => intro acc; simp [parseNatFrom]
  | cons c rest ih =>
    intro acc
    by_cases h : c.isDigit
    · simp [parseNatFrom, h, ih]
    · simp [parseNatFrom, h]

theorem parseNatFrom_natDigits (n : Nat) :
    ∀ acc, parseNatFrom acc (natDigits n) = some (acc * 10 ^ (natDigits n).length + n) := by
  induction n using Nat.strong_induction_on with
  | _ n ih =>
    intro acc
    by_cases h : n < 10
    · rw [natDigits_lt10 n h]
      simp [parseNatFrom, digitChar_isDigit n h, digitVal_digitChar n h]
    · rw [natDigits_ge10 n (by omega)]
      rw [parseNatFrom_append]
      rw [ih (n / 10) (by omega) acc]
      have hd : (Nat.digitChar (n % 10)).isDigit = true := digitChar_isDigit _ (by omega)
      have hv : digitVal (Nat.digitChar (n % 10)) = n % 10 := digitVal_digitChar _ (by omega)
      simp only [parseNatFrom, hd, if_pos, hv, List.length_append, List.length_cons,
        List.length_nil]
      congr 1
      have hmod := Nat.div_add_mod n 10
      generalize (natDigits (n / 10)).length = L
      rw [pow_succ]
      ring_nf
      omega

theorem parseNat_natDigits (n : Nat) : parseNat (natDigits n) = some n := by
  rw [parseNat]
  have h1 : (natDigits n).isEmpty = false := by
    cases h : natDigits n with
    | nil => exact absurd h (natDigits_ne_nil n)
    | cons a l => simp [List.isEmpty]
  rw [h1]
  simp [parseNatFrom_natDigits n 0]

/-! ## Helper lemmas: association maps -/

theorem mapLookup_insert {κ ν : Type} [DecidableEq κ] (m : List (κ × ν)) (k k' : κ) (v : ν) :
    mapLookup (mapInsert m k v) k' = if k = k' then some v else mapLookup m k' := by
  induction m with
  | nil => simp [mapInsert, mapLookup]
  | cons kv rest ih =>
    obtain ⟨k0, v0⟩ := kv
    by_cases h0 : k0 = k
    · subst h0
      simp only [mapInsert, if_pos rfl, mapLookup]
      by_cases h1 : k0 = k' <;> simp [h1]
    · simp only [mapInsert, if_neg h0, mapLookup, ih]
      by_cases h1 : k0 = k'
      · subst h1
        simp [Ne.symm h0]
      · simp [h1]

theorem mapLookup_eq_none {κ ν : Type} [DecidableEq κ] (m : List (κ × ν)) (k : κ) :
    k ∉ m.map Prod.fst → mapLookup m k = none := by
  induction m with
  | nil => intro h; simp [mapLookup]
  | cons kv rest ih =>
    intro h
    obtain ⟨k0, v0⟩ := kv
    simp only [List.map_cons, List.mem_cons] at h
    push_neg at h
    simp only [mapLookup]
    rw [if_neg (fun he => h.1 he.symm)]
    exact ih h.2

theorem nodupKeys_insert {κ ν : Type} [DecidableEq κ] (m : List (κ × ν)) (k : κ) (v : ν)
    (h : NodupKeys m) : NodupKeys (mapInsert m k v) := by
  induction m with
  | nil => simp [mapInsert, NodupKeys]
  | cons kv rest ih =>
    obtain ⟨k0, v0⟩ := kv
    simp only [NodupKeys, List.map_cons, List.nodup_cons] at h
    by_cases h0 : k0 = k
    · subst h0
      simpa [mapInsert, NodupKeys] using h
    · have hkeys : ∀ (mm : List (κ × ν)) (kk : κ) (vv : ν),
          ((mapInsert mm kk vv).map Prod.fst : List κ) ⊆ kk :: mm.map Prod.fst := by
        intro mm kk vv
        induction mm with
        | nil => simp [mapInsert]
        | cons kv2 rest2 ih2 =>
          obtain ⟨k2, v2⟩ := kv2
          by_cases h2 : k2 = kk
          · subst h2; simp [mapInsert]
          · simp only [mapInsert, if_neg h2, List.map_cons]
            intro x hx
            simp only [List.mem_cons] at hx
            rcases hx with hx | hx
            · simp [hx]
            · have := ih2 hx
              simp only [List.mem_cons] at this ⊢
              tauto
      simp only [mapInsert, if_neg h0, NodupKeys, List.map_cons, List.nodup_cons]
      constructor
      · intro hmem
        have := hkeys rest k v hmem
        simp only [List.mem_cons] at this
        rcases this with h1 | h1
        · exact h0 h1
        · exact h.1 h1
      · exact ih h.2

theorem foldl_insert_lookup {κ ν : Type} [DecidableEq κ] :
    ∀ (l : List (κ × ν)) (acc : List (κ × ν)) (k : κ), NodupKeys l →
      mapLookup (l.foldl (fun m kv => mapInsert m kv.1 kv.2) acc) k =
        match mapLookup l k with
        | some v => some v
        | none => mapLookup acc k := by
  intro l
  induction l with
  | nil => intro acc k h; simp [mapLookup]
  | cons kv rest ih =>
    intro acc k h
    obtain ⟨k0, v0⟩ := kv
    simp only [NodupKeys, List.map_cons, List.nodup_cons] at h
    simp only [List.foldl_cons]
    rw [ih (mapInsert acc k0 v0) k h.2]
    by_cases h0 : k0 = k
    · subst h0
      have hrest : mapLookup rest k0 = none := mapLookup_eq_none rest k0 h.1
      simp [hrest, mapLookup, mapLookup_insert]
    · simp only [mapLookup]
      rw [if_neg h0]
      cases hr : mapLookup rest k with
      | some v => simp
      | none => simp [mapLookup_insert, h0]

theorem mapLookup_fromEntries {κ ν : Type} [DecidableEq κ] (l : List (κ × ν)) (k : κ)
    (h : NodupKeys l) : mapLookup (fromEntries l) k = mapLookup l k := by
  rw [fromEntries, foldl_insert_lookup l [] k h]
  cases hr : mapLookup l k <;> simp [mapLookup]

/-! ## Helper lemmas: registry persistence -/

theorem decodePortsFrom_marshal (l : List (Nat × String)) :
    ∀ acc, decodePortsFrom acc (l.map (fun kv => (String.mk (natDigits kv.1), kv.2))) =
      some (l.foldl (fun m kv => mapInsert m kv.1 kv.2) acc) := by
  induction l with
  | nil => intro acc; simp [decodePortsFrom]
  | cons kv rest ih =>
    intro acc
    obtain ⟨k0, v0⟩ := kv
    simp only [List.map_cons, decodePortsFrom, List.foldl_cons]
    simp only [parseNat_natDigits]
    exact ih (mapInsert acc k0 v0)

theorem goUnmarshal_marshal (c : Config) :
    goUnmarshal (marshalConfig c) =
      Except.ok { Ports := some (fromEntries c.Ports),
                  Labels := some (fromEntries c.Labels) } := by
  rw [goUnmarshal]
  simp only [marshalConfig]
  rw [decodePortsFrom_marshal c.Ports []]
  rfl

theorem loadFromWire_marshal (c : Config) :
    loadFromWire (marshalConfig c) =
      Except.ok { Ports := fromEntries c.Ports, Labels := fromEntries c.Labels } := by
  rw [loadFromWire, readConfig]
  rw [goUnmarshal_marshal c]
  rfl

/-! ## Helper lemmas: deploy-id formatting -/

theorem natDigits_year_shape (n : Nat) (h1 : 1000 ≤ n) (h2 : n ≤ 9999) :
    ∃ a b c d : Char, natDigits n = [a, b, c, d] ∧
      a.isDigit = true ∧ b.isDigit = true ∧ c.isDigit = true ∧ d.isDigit = true := by
  rw [natDigits_ge10 n (by omega)]
  rw [natDigits_ge10 (n / 10) (by omega)]
  rw [natDigits_ge10 (n / 10 / 10) (by omega)]
  rw [natDigits_lt10 (n / 10 / 10 / 10) (by omega)]
  refine ⟨Nat.digitChar (n / 10 / 10 / 10), Nat.digitChar (n / 10 / 10 % 10),
    Nat.digitChar (n / 10 % 10), Nat.digitChar (n % 10), by simp,
    digitChar_isDigit _ (by omega), digitChar_isDigit _ (by omega),
    digitChar_isDigit _ (by omega), digitChar_isDigit _ (by omega)⟩

theorem pad2_shape (n : Nat) (h : n ≤ 99) :
    ∃ a b : Char, pad2 n = [a, b] ∧ a.isDigit = true ∧ b.isDigit = true := by
  by_cases h1 : n < 10
  · refine ⟨'0', Nat.digitChar n, ?_, by decide, digitChar_isDigit n h1⟩
    rw [pad2, if_pos h1, natDigits_lt10 n h1]
  · refine ⟨Nat.digitChar (n / 10), Nat.digitChar (n % 10), ?_,
      digitChar_isDigit _ (by omega), digitChar_isDigit _ (by omega)⟩
    rw [pad2, if_neg h1, natDigits_ge10 n (by omega), natDigits_lt10 (n / 10) (by omega)]
    rfl

theorem clientGet_swapRedirect (a : Attempt) : clientGet (swapRedirect a) = clientGet a := by
  cases a <;> rfl

theorem waitFrom_swap_aux :
    ∀ (n endT : Nat) (polls : Nat → Attempt × Nat) (i t : Nat), endT + 1 - t ≤ n →
      waitFrom endT (fun j => (swapRedirect (polls j).1, (polls j).2)) i t =
        waitFrom endT polls i t := by
  intro n
  induction n with
  | zero =>
    intro endT polls i t hn
    cases ha : (polls i).1 with
    | completed s =>
      rw [waitFrom_completed endT _ i t s (by simp [ha, swapRedirect]),
        waitFrom_completed endT polls i t s ha]
    | redirect =>
      have h1 : clientGet ((fun j => (swapRedirect (polls j).1, (polls j).2)) i).1 = none := by
        simp [ha, swapRedirect, clientGet]
      have h2 : clientGet (polls i).1 = none := by simp [ha, clientGet]
      have hd : t + (polls i).2 > endT := by omega
      rw [waitFrom_errTimeout endT _ i t h1 (by simpa using hd),
        waitFrom_errTimeout endT polls i t h2 hd]
    | connFailure =>
      have h1 : clientGet ((fun j => (swapRedirect (polls j).1, (polls j).2)) i).1 = none := by
        simp [ha, swapRedirect, clientGet]
      have h2 : clientGet (polls i).1 = none := by simp [ha, clientGet]
      have hd : t + (polls i).2 > endT := by omega
      rw [waitFrom_errTimeout endT _ i t h1 (by simpa using hd),
        waitFrom_errTimeout endT polls i t h2 hd]
  | succ n ih =>
    intro endT polls i t hn
    cases ha : (polls i).1 with
    | completed s =>
      rw [waitFrom_completed endT _ i t s (by simp [ha, swapRedirect]),
        waitFrom_completed endT polls i t s ha]
    | redirect =>
      have h1 : clientGet ((fun j => (swapRedirect (polls j).1, (polls j).2)) i).1 = none := by
        simp [ha, swapRedirect, clientGet]
      have h2 : clientGet (polls i).1 = none := by simp [ha, clientGet]
      by_cases hd : t + (polls i).2 > endT
      · rw [waitFrom_errTimeout endT _ i t h1 (by simpa using hd),
          waitFrom_errTimeout endT polls i t h2 hd]
      · rw [waitFrom_errRetry endT _ i t h1 (by simpa using hd),
          waitFrom_errRetry endT polls i t h2 hd]
        have hI : STARTUP_HEALTH_CHECK_INTERVAL = 100 := rfl
        rw [ih endT polls (i + 1) (t + (polls i).2 + STARTUP_HEALTH_CHECK_INTERVAL) (by omega)]
    | connFailure =>
      have h1 : clientGet ((fun j => (swapRedirect (polls j).1, (polls j).2)) i).1 = none := by
        simp [ha, swapRedirect, clientGet]
      have h2 : clientGet (polls i).1 = none := by simp [ha, clientGet]
      by_cases hd : t + (polls i).2 > endT
      · rw [waitFrom_errTimeout endT _ i t h1 (by simpa using hd),
          waitFrom_errTimeout endT polls i t h2 hd]
      · rw [waitFrom_errRetry endT _ i t h1 (by simpa using hd),
          waitFrom_errRetry endT polls i t h2 hd]
        have hI : STARTUP_HEALTH_CHECK_INTERVAL = 100 := rfl
        rw [ih endT polls (i + 1) (t + (polls i).2 + STARTUP_HEALTH_CHECK_INTERVAL) (by omega)]

/-- C2 counterexample: a run in which the very first poll is a redirect,
the deadline is far from over, and the checker does NOT fail immediately:
it retries (the attempt counter reaches 2) and ends `healthy` because the
second poll answers 200. Under the claim the checker would have stopped
after the redirect with a failure. -/
theorem waitForAppToStart_redirect_retried :
    (((fun i => if i = 0 then (Attempt.redirect, 0) else (Attempt.completed 200, 0)) :
        Nat → Attempt × Nat) 0).1 = Attempt.redirect ∧
    waitForAppToStart 8001 ⟨fun _ => "", "/health"⟩ 0
      (fun i => if i = 0 then (Attempt.redirect, 0) else (Attempt.completed 200, 0)) =
      (HealthResult.healthy, 2) := by
  constructor
  · rfl
  · rw [waitForAppToStart]
    rw [waitFrom_errRetry _ _ _ _ (by rfl) (by decide)]
    rw [waitFrom_completed _ _ 1 _ 200 (by rfl)]
    decide

/-- C2 (amended): in `waitForAppToStart` a redirect response does not have
its own terminal outcome; because `client.Get` reports it as a non-nil
error, the loop treats it exactly like a connection failure (deadline
check, sleep, retry; `startupTimeout` after the deadline). Formally:
replacing every redirect outcome in the poll schedule by a connection
failure changes neither the loop's result nor the number of attempts
made. -/
theorem waitFrom_redirect_eq_connFailure (endT : Nat) (polls : Nat → Attempt × Nat)
    (i t : Nat) :
    waitFrom endT (fun j => (swapRedirect (polls j).1, (polls j).2)) i t =
      waitFrom endT polls i t :=
  waitFrom_swap_aux (endT + 1 - t) endT polls i t (le_refl _)

/-- C3: if the GET of some iteration completes with a status other than
200, the loop returns `badStatus` with that code at once: exactly one
attempt is made from that iteration on, regardless of how much deadline
remains. -/
theorem waitFrom_badStatus_terminal (endT : Nat) (polls : Nat → Attempt × Nat)
    (i t s d : Nat) (h : polls i = (Attempt.completed s, d)) (h200 : s ≠ 200) :
    waitFrom endT polls i t = (HealthResult.badStatus s, 1) := by
  rw [waitFrom_completed endT polls i t s (by rw [h])]
  simp [h200]

theorem waitFrom_badStatus_terminal_witness :
    (500 : Nat) ≠ 200 ∧
    waitFrom 1000 (fun _ => (Attempt.completed 500, 0)) 0 0 = (HealthResult.badStatus 500, 1) :=
  ⟨by decide, waitFrom_badStatus_terminal 1000 (fun _ => (Attempt.completed 500, 0)) 0 0 500 0
    rfl (by decide)⟩

/-- C4: the three remaining branches of the loop, as the source orders
them. A GET completing with status 200 returns `healthy` from that very
attempt; a GET that fails to complete is followed by the deadline check:
strictly past the deadline the loop returns `startupTimeout` from that
attempt, otherwise it sleeps `STARTUP_HEALTH_CHECK_INTERVAL` and retries,
its result being that of the continuation with one more attempt
counted. -/
theorem waitFrom_policy (endT : Nat) (polls : Nat → Attempt × Nat) (i t d : Nat) :
    (polls i = (Attempt.completed 200, d) →
      waitFrom endT polls i t = (HealthResult.healthy, 1)) ∧
    (polls i = (Attempt.connFailure, d) → t + d > endT →
      waitFrom endT polls i t = (HealthResult.startupTimeout, 1)) ∧
    (polls i = (Attempt.connFailure, d) → ¬ t + d > endT →
      waitFrom endT polls i t =
        ((waitFrom endT polls (i + 1) (t + d + STARTUP_HEALTH_CHECK_INTERVAL)).1,
         (waitFrom endT polls (i + 1) (t + d + STARTUP_HEALTH_CHECK_INTERVAL)).2 + 1)) := by
  refine ⟨?_, ?_, ?_⟩
  · intro h
    rw [waitFrom_completed endT polls i t 200 (by rw [h])]
    simp
  · intro h hd
    exact waitFrom_errTimeout endT polls i t (by rw [h]; rfl) (by rw [h]; exact hd)
  · intro h hd
    have hfst : clientGet (polls i).1 = none := by rw [h]; rfl
    have hsnd : (polls i).2 = d := by rw [h]
    rw [waitFrom_errRetry endT polls i t hfst (by rw [hsnd]; exact hd), hsnd]

theorem waitFrom_policy_witness :
    waitFrom 1000 (fun _ => (Attempt.completed 200, 50)) 0 0 = (HealthResult.healthy, 1) ∧
    waitFrom 1000 (fun _ => (Attempt.connFailure, 1500)) 0 0 =
      (HealthResult.startupTimeout, 1) ∧
    waitFrom 1000 (fun j => if j = 0 then (Attempt.connFailure, 0) else
        (Attempt.completed 200, 0)) 0 0 =
      ((waitFrom 1000 (fun j => if j = 0 then (Attempt.connFailure, 0) else
          (Attempt.completed 200, 0)) 1 (0 + 0 + STARTUP_HEALTH_CHECK_INTERVAL)).1,
       (waitFrom 1000 (fun j => if j = 0 then (Attempt.connFailure, 0) else
          (Attempt.completed 200, 0)) 1 (0 + 0 + STARTUP_HEALTH_CHECK_INTERVAL)).2 + 1) :=
  ⟨(waitFrom_policy 1000 (fun _ => (Attempt.completed 200, 50)) 0 0 50).1 rfl,
   (waitFrom_policy 1000 (fun _ => (Attempt.connFailure, 1500)) 0 0 1500).2.1 rfl (by decide),
   (waitFrom_policy 1000 (fun j => if j = 0 then (Attempt.connFailure, 0) else
      (Attempt.completed 200, 0)) 0 0 0).2.2 rfl (by decide)⟩

/-- C5: the allocator scans `8001 ≤ p < 8100` in increasing order. Any
port it returns lies in that range, its dial failed, and every smaller
candidate's dial succeeded (it is the first free one); if every candidate
in the range is occupied, the allocator returns the
`Could not find free port` error. -/
theorem findUnusedPort_spec (dial : Nat → Bool) :
    (∀ p, findUnusedPort dial = Except.ok p →
      8001 ≤ p ∧ p < 8100 ∧ dial p = false ∧ ∀ q, 8001 ≤ q → q < p → dial q = true) ∧
    ((∀ q, 8001 ≤ q → q < 8100 → dial q = true) →
      findUnusedPort dial = Except.error ()) := by
  constructor
  · intro p h
    rw [findUnusedPort] at h
    cases hf : (List.range' 8001 99).find? (fun p => ! dial p) with
    | none => rw [hf] at h; exact absurd h (by simp)
    | some p' =>
      rw [hf] at h
      have hp : p' = p := by simpa using h
      subst hp
      obtain ⟨h1, h2, h3, h4⟩ := find?_range'_spec _ _ _ _ hf
      refine ⟨h1, by omega, by simpa using h3, fun q hq1 hq2 => by simpa using h4 q hq1 hq2⟩
  · intro hall
    rw [findUnusedPort]
    rw [find?_range'_none _ _ _ (fun q hq1 hq2 => by simp [hall q hq1 (by omega)])]

theorem findUnusedPort_spec_witness :
    (8001 ≤ 8003 ∧ 8003 < 8100 ∧ (fun p => decide (p < 8003)) 8003 = false ∧
      ∀ q, 8001 ≤ q → q < 8003 → (fun p => decide (p < 8003)) q = true) ∧
    findUnusedPort (fun _ => true) = Except.error () :=
  ⟨(findUnusedPort_spec (fun p => decide (p < 8003))).1 8003 rfl,
   (findUnusedPort_spec (fun _ => true)).2 (fun q h1 h2 => rfl)⟩

/-- C1: when port allocation and manifest resolution succeed (and the
config write itself succeeds), `Run` records `port -> deployId` in the
in-memory ports map and persists it to `config.json` before launching the
process — `persisted` precedes `launched` in the event trace — and it does
so whatever the spawn and health outcome: in particular when `Run` goes on
to fail with the spawn error or a health-check error, the persisted
assignment is still in the final state, never rolled back. -/
theorem run_persists_port_before_launch (st : ServerState) (deployId : String)
    (env : RunEnv) (port : Nat) (app : Application)
    (hport : findUnusedPort env.dialSucceeds = Except.ok port)
    (happ : env.manifest = Except.ok app)
    (hpersist : env.persistOk = true) :
    mapLookup (Run st deployId env).2.1.config.Ports port = some deployId ∧
    (Run st deployId env).2.1.disk =
      some (marshalConfig (assignPort st.config port deployId)) ∧
    (Run st deployId env).2.2 =
      if env.spawnOk then [Event.persisted, Event.launched] else [Event.persisted] := by
  by_cases hs : env.spawnOk
  · simp [Run, hport, happ, writeConfig, hpersist, hs, assignPort, mapLookup_insert]
  · simp [Run, hport, happ, writeConfig, hpersist, hs, assignPort, mapLookup_insert]

theorem run_persists_port_before_launch_witness :
    findUnusedPort envSpawnFail.dialSucceeds = Except.ok 8001 ∧
    envSpawnFail.manifest = Except.ok appFixture ∧
    envSpawnFail.persistOk = true ∧
    (mapLookup (Run stEmpty "d1" envSpawnFail).2.1.config.Ports 8001 = some "d1" ∧
     (Run stEmpty "d1" envSpawnFail).2.1.disk =
       some (marshalConfig (assignPort stEmpty.config 8001 "d1")) ∧
     (Run stEmpty "d1" envSpawnFail).2.2 =
       if envSpawnFail.spawnOk then [Event.persisted, Event.launched]
       else [Event.persisted]) :=
  ⟨rfl, rfl, rfl,
   run_persists_port_before_launch stEmpty "d1" envSpawnFail 8001 appFixture rfl rfl rfl⟩

/-- C6: if the allocator finds no free port, or the manifest fails to
resolve, `Run` returns the corresponding error having done nothing: the
in-memory registry and the on-disk file are exactly as before and no
side-effect event happened (no persist call, no process launched). -/
theorem run_early_failure_no_side_effects (st : ServerState) (deployId : String)
    (env : RunEnv) :
    (findUnusedPort env.dialSucceeds = Except.error () →
      Run st deployId env = (Except.error RunError.noFreePortAvailable, st, [])) ∧
    (∀ port, findUnusedPort env.dialSucceeds = Except.ok port →
      env.manifest = Except.error () →
      Run st deployId env = (Except.error RunError.manifestError, st, [])) := by
  constructor
  · intro h
    simp [Run, h]
  · intro port hp hm
    simp [Run, hp, hm]

theorem run_early_failure_no_side_effects_witness :
    (findUnusedPort envNoPort.dialSucceeds = Except.error () ∧
     Run stEmpty "d1" envNoPort = (Except.error RunError.noFreePortAvailable, stEmpty, [])) ∧
    (findUnusedPort envBadManifest.dialSucceeds = Except.ok 8001 ∧
     envBadManifest.manifest = Except.error () ∧
     Run stEmpty "d1" envBadManifest =
       (Except.error RunError.manifestError, stEmpty, [])) :=
  ⟨⟨rfl, (run_early_failure_no_side_effects stEmpty "d1" envNoPort).1 rfl⟩,
   ⟨rfl, rfl,
    (run_early_failure_no_side_effects stEmpty "d1" envBadManifest).2 8001 rfl rfl⟩⟩

/-- C8: the result of `writeConfig` is dropped inside `Run`, so whether
the persist succeeds or fails changes nothing observable about the run:
not its result (in particular no registry-write error is ever returned —
`RunError` has no such variant), not the in-memory registry, and not the
event sequence (the process is launched and health awaited regardless).
Only the on-disk content can differ. -/
theorem run_independent_of_persist (st : ServerState) (deployId : String)
    (env : RunEnv) (b1 b2 : Bool) :
    (Run st deployId { env with persistOk := b1 }).1 =
      (Run st deployId { env with persistOk := b2 }).1 ∧
    (Run st deployId { env with persistOk := b1 }).2.1.config =
      (Run st deployId { env with persistOk := b2 }).2.1.config ∧
    (Run st deployId { env with persistOk := b1 }).2.2 =
      (Run st deployId { env with persistOk := b2 }).2.2 := by
  cases hf : findUnusedPort env.dialSucceeds with
  | error e =>
    simp [Run, hf]
  | ok port =>
    cases hm : env.manifest with
    | error e => simp [Run, hf, hm]
    | ok app =>
      by_cases hs : env.spawnOk
      · simp [Run, hf, hm, hs, assignPort]
      · simp [Run, hf, hm, hs, assignPort]

/-- C7: persisting after an assignment and loading back finds the
assignment: for any registry (with the at-most-one-binding-per-key
invariant Go maps guarantee), after `assignPort p d`, marshalling to the
wire format and unmarshalling back yields a registry whose ports map still
has `d` at key `p` — the decimal rendering of the key round-trips through
the file. -/
theorem registry_roundtrip (c : Config) (p : Nat) (d : String) (h : NodupKeys c.Ports) :
    ∃ c2, loadFromWire (marshalConfig (assignPort c p d)) = Except.ok c2 ∧
      mapLookup c2.Ports p = some d := by
  refine ⟨_, loadFromWire_marshal (assignPort c p d), ?_⟩
  show mapLookup (fromEntries (mapInsert c.Ports p d)) p = some d
  rw [mapLookup_fromEntries _ _ (nodupKeys_insert c.Ports p d h)]
  rw [mapLookup_insert]
  simp

theorem registry_roundtrip_witness :
    NodupKeys emptyConfig.Ports ∧
    ∃ c2, loadFromWire (marshalConfig (assignPort emptyConfig 8050 "d1")) = Except.ok c2 ∧
      mapLookup c2.Ports 8050 = some "d1" :=
  ⟨by simp [emptyConfig, NodupKeys],
   registry_roundtrip emptyConfig 8050 "d1" (by simp [emptyConfig, NodupKeys])⟩

/-- C10: `readConfig` swallows every read failure — not only a missing
file but any `ReadError`, e.g. a permission error — returning empty maps
and no error; it returns an error exactly when the read succeeded but the
contents failed to unmarshal, and then it is that unmarshal error. -/
theorem readConfig_error_policy (α : Type) (unmarshal : α → Except ParseError RawConfig)
    (e : ReadError) (data : α) :
    readConfig (Except.error e) unmarshal = Except.ok emptyConfig ∧
    (∀ pe, unmarshal data = Except.error pe →
      readConfig (Except.ok data) unmarshal = Except.error pe) ∧
    (∀ (r : Except ReadError α) pe, readConfig r unmarshal = Except.error pe →
      ∃ d2, r = Except.ok d2 ∧ unmarshal d2 = Except.error pe) := by
  refine ⟨rfl, ?_, ?_⟩
  · intro pe h
    rw [readConfig, h]
  · intro r pe h
    cases r with
    | error e2 => simp [readConfig] at h
    | ok d2 =>
      cases hu : unmarshal d2 with
      | error pe2 =>
        refine ⟨d2, rfl, ?_⟩
        cases pe
        cases pe2
        exact hu
      | ok raw =>
        simp only [readConfig] at h
        rw [hu] at h
        simp at h

theorem readConfig_error_policy_witness :
    @readConfig Unit (Except.error ReadError.permissionDenied)
      (fun _ => Except.error ParseError.invalid) = Except.ok emptyConfig ∧
    @readConfig Unit (Except.ok ())
      (fun _ => Except.error ParseError.invalid) = Except.error ParseError.invalid ∧
    ∃ d2, (Except.ok () : Except ReadError Unit) = Except.ok d2 ∧
      (fun _ => Except.error ParseError.invalid :
        Unit → Except ParseError RawConfig) d2 = Except.error ParseError.invalid :=
  ⟨(readConfig_error_policy Unit (fun _ => Except.error ParseError.invalid)
      ReadError.permissionDenied ()).1,
   (readConfig_error_policy Unit (fun _ => Except.error ParseError.invalid)
      ReadError.permissionDenied ()).2.1 ParseError.invalid rfl,
   (readConfig_error_policy Unit (fun _ => Except.error ParseError.invalid)
      ReadError.permissionDenied ()).2.2 (Except.ok ()) ParseError.invalid rfl⟩

/-- C9: the deploy id is the wall clock printed at second precision: for
any in-range clock reading it matches `YYYY-MM-DD-HH-MM-SS`; the returned
path is the deploy root joined with the id; and the id is a function of
the six second-precision fields only, so two calls within the same clock
second (arbitrary nanoseconds) produce identical ids. -/
theorem newDeployDir_timestamp (root : String) (t t' : GoTime)
    (hy1 : 1000 ≤ t.year) (hy2 : t.year ≤ 9999) (hmo : t.month ≤ 99) (hd : t.day ≤ 99)
    (hh : t.hour ≤ 99) (hmi : t.minute ≤ 99) (hs : t.second ≤ 99)
    (hsame : t'.year = t.year ∧ t'.month = t.month ∧ t'.day = t.day ∧
      t'.hour = t.hour ∧ t'.minute = t.minute ∧ t'.second = t.second) :
    isTimestampFormat (NewDeployDir root t).DeployId = true ∧
    (NewDeployDir root t).Path =
      root ++ "/" ++ deployPath ++ "/" ++ (NewDeployDir root t).DeployId ∧
    (NewDeployDir root t').DeployId = (NewDeployDir root t).DeployId := by
  obtain ⟨y1, y2, y3, y4, hy, hdg1, hdg2, hdg3, hdg4⟩ := natDigits_year_shape t.year hy1 hy2
  obtain ⟨mo1, mo2, hmoE, hmo1, hmo2⟩ := pad2_shape t.month hmo
  obtain ⟨dd1, dd2, hdE, hdd1, hdd2⟩ := pad2_shape t.day hd
  obtain ⟨hr1, hr2, hhE, hhr1, hhr2⟩ := pad2_shape t.hour hh
  obtain ⟨mi1, mi2, hmiE, hmii1, hmii2⟩ := pad2_shape t.minute hmi
  obtain ⟨ss1, ss2, hsE, hss1, hss2⟩ := pad2_shape t.second hs
  refine ⟨?_, ?_, ?_⟩
  · show isTimestampFormat (String.mk (timestampChars t)) = true
    rw [timestampChars, hy, hmoE, hdE, hhE, hmiE, hsE]
    simp [isTimestampFormat, hdg1, hdg2, hdg3, hdg4, hmo1, hmo2, hdd1, hdd2,
      hhr1, hhr2, hmii1, hmii2, hss1, hss2]
  · show pathJoin (pathJoin root deployPath) (String.mk (timestampChars t)) =
      root ++ "/" ++ deployPath ++ "/" ++ String.mk (timestampChars t)
    simp [pathJoin, String.append_assoc]
  · show String.mk (timestampChars t') = String.mk (timestampChars t)
    simp only [timestampChars, hsame.1, hsame.2.1, hsame.2.2.1, hsame.2.2.2.1,
      hsame.2.2.2.2.1, hsame.2.2.2.2.2]

theorem newDeployDir_timestamp_witness :
    isTimestampFormat
      (NewDeployDir "/srv/camus" ⟨2026, 10, 11, 7, 5, 59, 123456789⟩).DeployId = true ∧
    (NewDeployDir "/srv/camus" ⟨2026, 10, 11, 7, 5, 59, 123456789⟩).Path =
      "/srv/camus" ++ "/" ++ deployPath ++ "/" ++
        (NewDeployDir "/srv/camus" ⟨2026, 10, 11, 7, 5, 59, 123456789⟩).DeployId ∧
    (NewDeployDir "/srv/camus" ⟨2026, 10, 11, 7, 5, 59, 0⟩).DeployId =
      (NewDeployDir "/srv/camus" ⟨2026, 10, 11, 7, 5, 59, 123456789⟩).DeployId :=
  newDeployDir_timestamp "/srv/camus" ⟨2026, 10, 11, 7, 5, 59, 123456789⟩
    ⟨2026, 10, 11, 7, 5, 59, 0⟩ (by decide) (by decide) (by decide) (by decide)
    (by decide) (by decide) (by decide) ⟨rfl, rfl, rfl, rfl, rfl, rfl⟩

end Camus
